import Mathlib

/-!
Shallow embedding of the reconciliation-and-rollout engine of the
`automated-deploy` CLI (src/aws/deployToECS.js and src/aws/createResources.js),
together with proofs about its rollout monitor, provisioners, service
reconciler and task-specification registrar.

Remote control-plane calls (AWS describe/create/update requests) are modelled
as explicit state passing over small record types; a call that can fail is a
Lean function returning `Except JsError _`, where `JsError` carries the `name`
field that the JavaScript code branches on.  Each embedded definition keeps the
name of the JavaScript function it is translated from.
-/

/-- A thrown JavaScript error, as far as the code inspects it: the AWS SDK sets
`error.name` to the error kind (e.g. `"RepositoryNotFoundException"`) and
`error.message` to the human-readable text. -/
structure JsError where
  name : String
  message : String
deriving DecidableEq, Repr

/- ────────────────────────────────────────────────────────────────────────
   Rollout monitor data model (deployToECS.js)
   ──────────────────────────────────────────────────────────────────────── -/

/-- One entry of `service.deployments` as returned by DescribeServices. -/
structure Deployment where
  status : String
  runningCount : Nat
  desiredCount : Nat
deriving DecidableEq, Repr

/-- One entry of `service.events`: a timestamped status message with a unique id. -/
structure Event where
  id : String
  message : String
deriving DecidableEq, Repr

/-- The part of a DescribeServices response that `waitForStable` reads. -/
structure Snapshot where
  deployments : List Deployment
  events : List Event
deriving DecidableEq, Repr

/-- Characters of `s`, lower-cased; used to model a case-insensitive regex. -/
def lowerChars (s : String) : List Char :=
  s.toList.map Char.toLower

/-- Substring containment on character lists. -/
def containsChars : List Char → List Char → Bool
  | [], needle => needle.isEmpty
  | hay@(_ :: t), needle => needle.isPrefixOf hay || containsChars t needle

/-- The regex test `/was stopped|failed|unable to place/i.test(message)` from `waitForStable`
(deployToECS.js line 216): case-insensitive search for one of the three fixed
failure phrases. -/
def testFailureRegex (m : String) : Bool :=
  let h := lowerChars m
  containsChars h (lowerChars "was stopped") ||
  containsChars h (lowerChars "failed") ||
  containsChars h (lowerChars "unable to place")

/-- Result of scanning the events of one snapshot: the grown processed-id set,
the informational messages printed this tick (in order), and the message of the
failure event that aborted the scan, if any. -/
structure EventScanResult where
  seen : List String
  logged : List String
  failure : Option String
deriving DecidableEq, Repr

/-- The `svc.events.forEach` body of `waitForStable` (deployToECS.js 212-220):
an event whose id is already in `printedEventIds` is skipped; otherwise its id
is added, its message is logged, and if the message matches the failure regex
the loop aborts by throwing that message. -/
def processEvents (seen : List String) (logged : List String) :
    List Event → EventScanResult
  | [] => ⟨seen, logged, none⟩
  | ev :: rest =>
    if seen.contains ev.id then
      processEvents seen logged rest
    else
      let seen2 := ev.id :: seen
      let logged2 := logged ++ [ev.message]
      if testFailureRegex ev.message then ⟨seen2, logged2, some ev.message⟩
      else processEvents seen2 logged2 rest

/-- The stability test of `waitForStable` (deployToECS.js 222-227): the first
deployment marked PRIMARY must have `runningCount === desiredCount` and the
deployments list must have length one. -/
def stableCheck (deployments : List Deployment) : Bool :=
  match deployments.find? (fun d => d.status == "PRIMARY") with
  | some primary =>
      primary.runningCount == primary.desiredCount && deployments.length == 1
  | none => false

/-- What one iteration of the `waitForStable` loop decides. -/
inductive TickResult where
  | stable
  | failed (msg : String)
  | poll (seen : List String)
deriving DecidableEq, Repr

/-- One iteration of the `waitForStable` poll loop on a successfully fetched
snapshot: first scan the events (a failure event throws), then test stability,
otherwise carry the grown processed-id set into the next iteration. -/
def waitForStableTick (seen : List String) (svc : Snapshot) : TickResult :=
  let scan := processEvents seen [] svc.events
  match scan.failure with
  | some m => TickResult.failed m
  | none =>
    if stableCheck svc.deployments then TickResult.stable
    else TickResult.poll scan.seen

/-- Terminal outcome of a `waitForStable` invocation. -/
inductive MonitorResult where
  | stable
  | failed (msg : String)
  | timedOut (elapsedMs : Nat)
  | describeFailed (e : JsError)
deriving DecidableEq, Repr

/-- The `waitForStable` loop (deployToECS.js 202-236) with an instantaneous
fake clock: the tick at elapsed time `t` reads snapshot `snaps (t / 15000)`.
The loop runs while `elapsed < timeout`; DescribeServices is not wrapped in a
try/catch, so a failed describe propagates at once; otherwise the tick either
returns stable, throws a failure message, or sleeps 15000 ms and repeats.
Falling out of the loop throws the timed-out error. -/
def monitorFrom (snaps : Nat → Except JsError Snapshot) (timeout : Nat)
    (seen : List String) (elapsed : Nat) : MonitorResult :=
  if _h : elapsed < timeout then
    match snaps (elapsed / 15000) with
    | Except.error e => MonitorResult.describeFailed e
    | Except.ok svc =>
      match waitForStableTick seen svc with
      | TickResult.stable => MonitorResult.stable
      | TickResult.failed m => MonitorResult.failed m
      | TickResult.poll seen2 => monitorFrom snaps timeout seen2 (elapsed + 15000)
  else MonitorResult.timedOut elapsed
termination_by timeout - elapsed
decreasing_by omega

/-- The call `waitForStable(ecs, cluster, service)` with the default budget
`10 * 60 * 1000` ms and a fresh empty `printedEventIds` set. -/
def waitForStableRun (snaps : Nat → Except JsError Snapshot) : MonitorResult :=
  monitorFrom snaps (10 * 60 * 1000) [] 0

/-- The stability test of `waitForDeployment` (deployToECS.js 411-419): the
PRIMARY deployment's counts must match and the list of non-PRIMARY deployments
must be empty. -/
def deploymentStableCheck (deployments : List Deployment) : Bool :=
  match deployments.find? (fun d => d.status == "PRIMARY") with
  | some p =>
      p.runningCount == p.desiredCount &&
      (deployments.filter (fun d => d.status != "PRIMARY")).length == 0
  | none => false

/-- Terminal outcome of a `waitForDeployment` invocation. -/
inductive DeployWaitResult where
  | stable (elapsedMs : Nat)
  | timedOut (elapsedMs : Nat)
deriving DecidableEq, Repr

/-- The `waitForDeployment` loop (deployToECS.js 397-431) with the same fake
clock.  Its poll body is wrapped in a try/catch: a failed DescribeServices is
logged at debug level, the loop sleeps `pollInterval` and tries again — the
error does not propagate.  Stability returns; exhausting `maxWaitTime` throws
the timed-out error. -/
def waitForDeploymentFrom (snaps : Nat → Except JsError (List Deployment))
    (maxWaitTime : Nat) (elapsed : Nat) : DeployWaitResult :=
  if _h : elapsed < maxWaitTime then
    match snaps (elapsed / 15000) with
    | Except.error _ => waitForDeploymentFrom snaps maxWaitTime (elapsed + 15000)
    | Except.ok deployments =>
      if deploymentStableCheck deployments then DeployWaitResult.stable elapsed
      else waitForDeploymentFrom snaps maxWaitTime (elapsed + 15000)
  else DeployWaitResult.timedOut elapsed
termination_by maxWaitTime - elapsed
decreasing_by omega

/- ────────────────────────────────────────────────────────────────────────
   Provisioners (createResources.js).  The remote control plane is modelled
   as explicit state; an optional injected `fault` on the lookup call stands
   for any other control-plane error (permission denied, malformed name,
   transient network failure).  Each ensure* definition keeps the branch
   structure of the JavaScript function of the same name; the `createCalls`
   component of a result counts the Create* requests it issued.
   ──────────────────────────────────────────────────────────────────────── -/

/-- A repository as stored by the registry control plane. -/
structure EcrRepo where
  repositoryName : String
  repositoryUri : String
deriving DecidableEq, Repr

/-- Registry control-plane state: the repositories that exist. -/
structure EcrState where
  repos : List EcrRepo
deriving DecidableEq, Repr

/-- Canonical repository URI, as the control plane derives it
(`acct.dkr.ecr.region.amazonaws.com/name`, spec section 8). -/
def mkRepoUri (account region name : String) : String :=
  account ++ ".dkr.ecr." ++ region ++ ".amazonaws.com/" ++ name

/-- DescribeRepositories for one name: returns the repository, or throws
`RepositoryNotFoundException` when absent; an injected fault models any other
control-plane error. -/
def ecrDescribe (st : EcrState) (fault : Option JsError) (name : String) :
    Except JsError EcrRepo :=
  match fault with
  | some e => Except.error e
  | none =>
    match st.repos.find? (fun r => r.repositoryName == name) with
    | some r => Except.ok r
    | none =>
      Except.error ⟨"RepositoryNotFoundException",
        "Repository " ++ name ++ " does not exist"⟩

/-- Outcome of `ensureECR`: the returned URI, the control-plane state after the
call, and how many CreateRepository requests were issued. -/
structure EcrResult where
  uri : String
  state : EcrState
  createCalls : Nat
deriving DecidableEq, Repr

/-- Function `ensureECR` (createResources.js 105-124): try DescribeRepositories and
return the existing URI; in the catch, rethrow unless `e.name` is exactly
`"RepositoryNotFoundException"`, otherwise issue CreateRepository and return
the fresh URI. -/
def ensureECR (st : EcrState) (fault : Option JsError)
    (repo account region : String) : Except JsError EcrResult :=
  match ecrDescribe st fault repo with
  | Except.ok r => Except.ok ⟨r.repositoryUri, st, 0⟩
  | Except.error e =>
    if e.name != "RepositoryNotFoundException" then Except.error e
    else
      let newRepo : EcrRepo := ⟨repo, mkRepoUri account region repo⟩
      Except.ok ⟨newRepo.repositoryUri, ⟨st.repos ++ [newRepo]⟩, 1⟩

/-- A cluster as stored by the compute control plane. -/
structure EcsCluster where
  clusterName : String
  clusterArn : String
  status : String
deriving DecidableEq, Repr

/-- Compute control-plane state for clusters. -/
structure ClusterState where
  clusters : List EcsCluster
deriving DecidableEq, Repr

/-- Canonical cluster ARN derived from the name. -/
def mkClusterArn (name : String) : String :=
  "arn:aws:ecs:cluster/" ++ name

/-- The clusters matching `name` in a DescribeClusters response. -/
def clusterLookup (st : ClusterState) (name : String) : List EcsCluster :=
  st.clusters.filter (fun c => c.clusterName == name)

/-- DescribeClusters: `ensureCluster` wraps it in no try/catch, so a fault
propagates; a missing cluster is reported through an empty list, not an error. -/
def clusterDescribe (st : ClusterState) (fault : Option JsError)
    (name : String) : Except JsError (List EcsCluster) :=
  match fault with
  | some e => Except.error e
  | none => Except.ok (clusterLookup st name)

/-- CreateCluster: provisions an ACTIVE cluster under the given name,
superseding a defunct record with the same name if one lingers. -/
def clusterCreate (st : ClusterState) (name : String) : EcsCluster × ClusterState :=
  let c : EcsCluster := ⟨name, mkClusterArn name, "ACTIVE"⟩
  (c, ⟨st.clusters.filter (fun c0 => c0.clusterName != name) ++ [c]⟩)

/-- Function `ensureCluster` (createResources.js 126-144): describe, and when
`clusters[0]?.status === "ACTIVE"` return that ARN; otherwise issue
CreateCluster and return the new ARN. -/
def ensureCluster (st : ClusterState) (fault : Option JsError) (name : String) :
    Except JsError (String × ClusterState × Nat) :=
  match clusterDescribe st fault name with
  | Except.error e => Except.error e
  | Except.ok clusters =>
    match clusters.head? with
    | some c =>
      if c.status == "ACTIVE" then Except.ok (c.clusterArn, st, 0)
      else
        let (c2, st2) := clusterCreate st name
        Except.ok (c2.clusterArn, st2, 1)
    | none =>
      let (c2, st2) := clusterCreate st name
      Except.ok (c2.clusterArn, st2, 1)

/-- A role as stored by the identity control plane. -/
structure IamRole where
  roleName : String
deriving DecidableEq, Repr

/-- Identity control-plane state: existing roles and (role, policy) attachments. -/
structure IamState where
  roles : List IamRole
  attached : List (String × String)
deriving DecidableEq, Repr

/-- Canonical role ARN computed locally by `ensureRole` before any call. -/
def mkRoleArn (account roleName : String) : String :=
  "arn:aws:iam::" ++ account ++ ":role/" ++ roleName

/-- GetRole: succeeds when the role exists, throws `NoSuchEntityException`
otherwise; an injected fault models any other control-plane error. -/
def getRole (st : IamState) (fault : Option JsError) (roleName : String) :
    Except JsError Unit :=
  match fault with
  | some e => Except.error e
  | none =>
    if st.roles.any (fun r => r.roleName == roleName) then Except.ok ()
    else Except.error ⟨"NoSuchEntityException",
      "The role with name " ++ roleName ++ " cannot be found"⟩

/-- Function `ensureRole` (createResources.js 146-174): try GetRole; the catch is bare,
so ANY lookup error falls into the create branch, which issues CreateRole and
AttachRolePolicy; the locally computed ARN is returned on every path. -/
def ensureRole (st : IamState) (fault : Option JsError)
    (account roleName policyArn : String) : String × IamState × Nat :=
  let fullArn := mkRoleArn account roleName
  match getRole st fault roleName with
  | Except.ok _ => (fullArn, st, 0)
  | Except.error _ =>
    (fullArn,
     ⟨st.roles ++ [⟨roleName⟩], st.attached ++ [(roleName, policyArn)]⟩,
     1)

/-- A security group as stored by the network control plane. -/
structure SecGroup where
  groupName : String
  vpcId : String
  groupId : String
deriving DecidableEq, Repr

/-- Network control-plane state: existing groups and the groups for which an
ingress-authorize call was issued. -/
structure Ec2State where
  sgs : List SecGroup
  ingressAuthorized : List String
deriving DecidableEq, Repr

/-- The groups matching a (name, vpc) filter in a DescribeSecurityGroups
response. -/
def sgLookup (st : Ec2State) (vpcId name : String) : List SecGroup :=
  st.sgs.filter (fun g => g.groupName == name && g.vpcId == vpcId)

/-- DescribeSecurityGroups: `ensureSG` wraps it in no try/catch, so a fault
propagates; an absent group is an empty list, not an error. -/
def sgDescribe (st : Ec2State) (fault : Option JsError) (vpcId name : String) :
    Except JsError (List SecGroup) :=
  match fault with
  | some e => Except.error e
  | none => Except.ok (sgLookup st vpcId name)

/-- Fresh group id assigned by the control plane at creation. -/
def mkGroupId (st : Ec2State) : String :=
  "sg-" ++ toString st.sgs.length

/-- Function `ensureSG` (createResources.js 193-227): describe by deterministic name
`project ++ "-sg"` and vpc; when `SecurityGroups.length` is nonzero return the
first group's id; otherwise issue CreateSecurityGroup followed by
AuthorizeSecurityGroupIngress and return the fresh id. -/
def ensureSG (st : Ec2State) (fault : Option JsError) (vpcId project : String) :
    Except JsError (String × Ec2State × Nat) :=
  let name := project ++ "-sg"
  match sgDescribe st fault vpcId name with
  | Except.error e => Except.error e
  | Except.ok groups =>
    match groups.head? with
    | some g => Except.ok (g.groupId, st, 0)
    | none =>
      let gid := mkGroupId st
      Except.ok (gid,
        ⟨st.sgs ++ [⟨name, vpcId, gid⟩], st.ingressAuthorized ++ [gid]⟩,
        1)

/- ────────────────────────────────────────────────────────────────────────
   Service reconciliation (createResources.js ensureService and
   deployToECS.js service precheck)
   ──────────────────────────────────────────────────────────────────────── -/

/-- A service as stored by the compute control plane. -/
structure EcsService where
  serviceName : String
  serviceArn : String
  status : String
  taskDefinition : String
deriving DecidableEq, Repr

/-- Compute control-plane state for services. -/
structure ServiceState where
  services : List EcsService
deriving DecidableEq, Repr

/-- Canonical service ARN derived from cluster and name. -/
def mkServiceArn (cluster name : String) : String :=
  "arn:aws:ecs:service/" ++ cluster ++ "/" ++ name

/-- The services matching `name` in a DescribeServices response. -/
def serviceLookup (st : ServiceState) (name : String) : List EcsService :=
  st.services.filter (fun s => s.serviceName == name)

/-- DescribeServices as called by `ensureService` (no try/catch around it):
a fault propagates; a missing service is an empty list. -/
def serviceDescribe (st : ServiceState) (fault : Option JsError)
    (name : String) : Except JsError (List EcsService) :=
  match fault with
  | some e => Except.error e
  | none => Except.ok (serviceLookup st name)

/-- Outcome of `ensureService`: the result (or propagated error), the
control-plane state after the call, and the number of CreateService requests
issued. -/
structure ServiceEnsureResult where
  result : Except JsError String
  state : ServiceState
  createCalls : Nat
deriving Repr

/-- CreateService: the control plane rejects a create whose name collides with
an existing service that is not INACTIVE ("Creation of service was not
idempotent"); otherwise it provisions an ACTIVE service. -/
def createServiceCall (st : ServiceState) (cluster name taskDefArn : String) :
    ServiceEnsureResult :=
  if st.services.any (fun s => s.serviceName == name && s.status != "INACTIVE") then
    ⟨Except.error ⟨"InvalidParameterException",
        "Creation of service was not idempotent"⟩, st, 1⟩
  else
    let arn := mkServiceArn cluster name
    ⟨Except.ok arn,
     ⟨st.services.filter (fun s => s.serviceName != name) ++
        [⟨name, arn, "ACTIVE", taskDefArn⟩]⟩,
     1⟩

/-- Function `ensureService` (createResources.js 275-303): describe, and when
`services[0]?.status === "ACTIVE"` return that ARN with no mutation; in every
other case — service absent, or present in ANY non-ACTIVE state — fall through
to CreateService. -/
def ensureService (st : ServiceState) (fault : Option JsError)
    (cluster name taskDefArn : String) : ServiceEnsureResult :=
  match serviceDescribe st fault name with
  | Except.error e => ⟨Except.error e, st, 0⟩
  | Except.ok services =>
    match services.head? with
    | some s =>
      if s.status == "ACTIVE" then ⟨Except.ok s.serviceArn, st, 0⟩
      else createServiceCall st cluster name taskDefArn
    | none => createServiceCall st cluster name taskDefArn

/-- What a `deployToECS` invocation did before any rollout monitoring: the
result of its service gate, and how many RegisterTaskDefinition and
UpdateService requests it issued. -/
structure DeployOutcome where
  result : Except String String
  registerCalls : Nat
  updateCalls : Nat
deriving Repr

/-- The service gate of `deployToECS` (deployToECS.js 314-339 together with
349-381): the DescribeServices call is wrapped in try/catch and `serviceExists`
becomes true only when the response lists a service whose status is ACTIVE; a
missing, errored, or non-ACTIVE service throws `"ECS service not found"`
before any RegisterTaskDefinition or UpdateService request; an ACTIVE service
proceeds to exactly one register and one update. -/
def deployToECSGate (describeOutcome : Except JsError (List EcsService)) :
    DeployOutcome :=
  let currentTaskDef :=
    match describeOutcome with
    | Except.error _ => none
    | Except.ok services =>
      match services.head? with
      | some s => if s.status == "ACTIVE" then some s.taskDefinition else none
      | none => none
  match currentTaskDef with
  | none => ⟨Except.error "ECS service not found", 0, 0⟩
  | some td => ⟨Except.ok td, 1, 1⟩

/- ────────────────────────────────────────────────────────────────────────
   Task-specification registrar (deployToECS.js)
   ──────────────────────────────────────────────────────────────────────── -/

/-- One container definition of a task specification.  The JavaScript code
copies a prior container with the object spread `{ ...c, image: newImage }`,
so every field other than `image` is carried over verbatim. -/
structure ContainerDef where
  name : String
  image : String
  essential : Bool
  portMappings : List Nat
  logGroup : String
  environment : List (String × String)
deriving DecidableEq, Repr

/-- A registered task definition as the control plane stores and describes it. -/
structure TaskDef where
  family : String
  networkMode : String
  requiresCompatibilities : List String
  cpu : String
  memory : String
  executionRoleArn : String
  taskRoleArn : String
  containerDefinitions : List ContainerDef
  revision : Nat
deriving DecidableEq, Repr

/-- The request body of a RegisterTaskDefinition call. -/
structure RegisterParams where
  family : String
  networkMode : String
  requiresCompatibilities : List String
  cpu : String
  memory : String
  executionRoleArn : String
  taskRoleArn : String
  containerDefinitions : List ContainerDef
deriving DecidableEq, Repr

/-- Swap every container's image for `repositoryUri ++ ":latest"`, the
`containerDefinitions.map((c) => ({ ...c, image: ... }))` of both deployToECS
variants. -/
def swapImages (cs : List ContainerDef) (repositoryUri : String) :
    List ContainerDef :=
  cs.map (fun c => { c with image := repositoryUri ++ ":latest" })

/-- The RegisterTaskDefinition request built by the `waitForStable` variant of
`deployToECS` (deployToECS.js 170-184): family, network mode, compatibilities,
cpu and memory are copied from the described prior definition `td`, but the
role references are the freshly ensured `executionRoleArn` / `taskRoleArn`
(computed by ensureExecutionRole / ensureTaskRole), NOT the prior ones. -/
def newTaskDefParams (td : TaskDef) (executionRoleArn taskRoleArn : String)
    (repositoryUri : String) : RegisterParams :=
  { family := td.family
    networkMode := td.networkMode
    requiresCompatibilities := td.requiresCompatibilities
    cpu := td.cpu
    memory := td.memory
    executionRoleArn := executionRoleArn
    taskRoleArn := taskRoleArn
    containerDefinitions := swapImages td.containerDefinitions repositoryUri }

/-- The RegisterTaskDefinition request built by the `waitForDeployment` variant
of `deployToECS` (deployToECS.js 350-370): every listed field, including both
role references, is copied from `oldTaskDef`; only the container images are
replaced. -/
def newTaskDefParamsV2 (oldTaskDef : TaskDef) (repositoryUri : String) :
    RegisterParams :=
  { family := oldTaskDef.family
    networkMode := oldTaskDef.networkMode
    requiresCompatibilities := oldTaskDef.requiresCompatibilities
    cpu := oldTaskDef.cpu
    memory := oldTaskDef.memory
    executionRoleArn := oldTaskDef.executionRoleArn
    taskRoleArn := oldTaskDef.taskRoleArn
    containerDefinitions := swapImages oldTaskDef.containerDefinitions repositoryUri }

/-- Highest revision registered so far for a family (0 when none). -/
def maxRevision (world : List TaskDef) (family : String) : Nat :=
  (world.filter (fun t => t.family == family)).foldl
    (fun m t => max m t.revision) 0

/-- Modelled from the spec: RegisterTaskDefinition is a control-plane call
(external interface, spec section 6); per the data model and section 4.3 each
registration appends a brand-new revision for the family — `numbered
maxRevision + 1` — and prior revisions are never edited. -/
def registerTaskDefinitionCall (world : List TaskDef) (p : RegisterParams) :
    TaskDef × List TaskDef :=
  let td : TaskDef :=
    { family := p.family
      networkMode := p.networkMode
      requiresCompatibilities := p.requiresCompatibilities
      cpu := p.cpu
      memory := p.memory
      executionRoleArn := p.executionRoleArn
      taskRoleArn := p.taskRoleArn
      containerDefinitions := p.containerDefinitions
      revision := maxRevision world p.family + 1 }
  (td, world ++ [td])

/- ────────────────────────────────────────────────────────────────────────
   Helper lemmas
   ──────────────────────────────────────────────────────────────────────── -/


theorem filter_self_of_filter_not {α : Type} (p : α → Bool) (l : List α) :
    (l.filter (fun a => !(p a))).filter p = [] := by
  induction l with
  | nil => rfl
  | cons a t ih =>
    by_cases hpa : p a = true
    · simp [List.filter_cons, hpa, ih]
    · simp only [Bool.not_eq_true] at hpa
      simp [List.filter_cons, hpa, ih]

theorem processEvents_failure_none (evs : List Event) :
    ∀ seen logged, (∀ ev ∈ evs, testFailureRegex ev.message = false) →
      (processEvents seen logged evs).failure = none := by
  induction evs with
  | nil => intro seen logged _; rfl
  | cons ev rest ih =>
    intro seen logged h
    have hev : testFailureRegex ev.message = false := h ev (by simp)
    have hrest : ∀ e ∈ rest, testFailureRegex e.message = false := by
      intro e he; exact h e (by simp [he])
    by_cases hc : ev.id ∈ seen
    · simpa [processEvents, hc] using ih seen logged hrest
    · simpa [processEvents, hc, hev] using
        ih (ev.id :: seen) (logged ++ [ev.message]) hrest

theorem processEvents_seen_mono (evs : List Event) :
    ∀ seen logged x, x ∈ seen →
      x ∈ (processEvents seen logged evs).seen := by
  induction evs with
  | nil => intro seen logged x hx; simpa [processEvents] using hx
  | cons ev rest ih =>
    intro seen logged x hx
    have hx2 : x ∈ ev.id :: seen := by simp [hx]
    by_cases hc : ev.id ∈ seen
    · simpa [processEvents, hc] using ih seen logged x hx
    · cases ht : testFailureRegex ev.message with
      | true => simpa [processEvents, hc, ht] using hx2
      | false =>
        have := ih (ev.id :: seen) (logged ++ [ev.message]) x hx2
        simpa [processEvents, hc, ht] using this

theorem processEvents_mem_seen (evs : List Event) :
    ∀ seen logged, (processEvents seen logged evs).failure = none →
      ∀ ev ∈ evs, ev.id ∈ (processEvents seen logged evs).seen := by
  induction evs with
  | nil => intro seen logged _ ev hev; cases hev
  | cons ev0 rest ih =>
    intro seen logged hfail ev hev
    by_cases hc : ev0.id ∈ seen
    · rcases List.mem_cons.1 hev with rfl | hev'
      · simpa [processEvents, hc] using
          processEvents_seen_mono rest seen logged ev.id hc
      · simpa [processEvents, hc] using
          ih seen logged (by simpa [processEvents, hc] using hfail) ev hev'
    · cases ht : testFailureRegex ev0.message with
      | true => simp [processEvents, hc, ht] at hfail
      | false =>
        have hfail2 : (processEvents (ev0.id :: seen) (logged ++ [ev0.message]) rest).failure = none := by
          simpa [processEvents, hc, ht] using hfail
        rcases List.mem_cons.1 hev with rfl | hev'
        · simpa [processEvents, hc, ht] using
            processEvents_seen_mono rest (ev.id :: seen) (logged ++ [ev.message])
              ev.id (by simp)
        · simpa [processEvents, hc, ht] using
            ih (ev0.id :: seen) (logged ++ [ev0.message]) hfail2 ev hev'

theorem processEvents_skip_seen (evs : List Event) :
    ∀ seen logged, (∀ ev ∈ evs, ev.id ∈ seen) →
      processEvents seen logged evs = ⟨seen, logged, none⟩ := by
  induction evs with
  | nil => intro seen logged _; rfl
  | cons ev rest ih =>
    intro seen logged h
    have hc : ev.id ∈ seen := h ev (by simp)
    have hrest : ∀ e ∈ rest, e.id ∈ seen := by
      intro e he; exact h e (by simp [he])
    simpa [processEvents, hc] using ih seen logged hrest

theorem processEvents_failure_of_fresh (evs : List Event) :
    ∀ seen logged, (evs.map Event.id).Nodup →
      (∃ ev ∈ evs, ev.id ∉ seen ∧ testFailureRegex ev.message = true) →
      ∃ m, (processEvents seen logged evs).failure = some m ∧
        ∃ e ∈ evs, testFailureRegex e.message = true ∧ m = e.message := by
  induction evs with
  | nil => intro seen logged _ h; rcases h with ⟨ev, hev, _⟩; cases hev
  | cons ev0 rest ih =>
    intro seen logged hnd h
    rcases h with ⟨ev, hev, hfresh, hfail⟩
    have hnd' : (rest.map Event.id).Nodup := (List.nodup_cons.1 hnd).2
    have hhead : ev0.id ∉ rest.map Event.id := (List.nodup_cons.1 hnd).1
    by_cases hc : ev0.id ∈ seen
    · have hev' : ev ∈ rest := by
        rcases List.mem_cons.1 hev with rfl | h'
        · exact absurd hc hfresh
        · exact h'
      rcases ih seen logged hnd' ⟨ev, hev', hfresh, hfail⟩ with ⟨m, hm, e, he, hfe, hme⟩
      exact ⟨m, by simpa [processEvents, hc] using hm, e, by simp [he], hfe, hme⟩
    · cases ht : testFailureRegex ev0.message with
      | true =>
        exact ⟨ev0.message, by simp [processEvents, hc, ht], ev0, by simp, ht, rfl⟩
      | false =>
        have hev' : ev ∈ rest := by
          rcases List.mem_cons.1 hev with rfl | h'
          · rw [ht] at hfail; cases hfail
          · exact h'
        have hid : ev.id ≠ ev0.id := by
          intro hcontra
          exact hhead (hcontra ▸ List.mem_map_of_mem Event.id hev')
        have hfresh2 : ev.id ∉ ev0.id :: seen := by
          simp only [List.mem_cons]
          rintro (h' | h')
          · exact hid h'
          · exact hfresh h'
        rcases ih (ev0.id :: seen) (logged ++ [ev0.message]) hnd'
            ⟨ev, hev', hfresh2, hfail⟩ with ⟨m, hm, e, he, hfe, hme⟩
        exact ⟨m, by simpa [processEvents, hc, ht] using hm, e, by simp [he], hfe, hme⟩

theorem stableCheck_iff (deployments : List Deployment) :
    stableCheck deployments = true ↔
      ∃ d, deployments = [d] ∧ d.status = "PRIMARY" ∧
        d.runningCount = d.desiredCount := by
  constructor
  · intro h
    unfold stableCheck at h
    cases hf : deployments.find? (fun d => d.status == "PRIMARY") with
    | none => rw [hf] at h; cases h
    | some primary =>
      rw [hf] at h
      rw [Bool.and_eq_true] at h
      have h1 : (primary.runningCount == primary.desiredCount) = true := h.1
      have h2 : deployments.length = 1 := by
        have := h.2
        simpa using this
      rcases List.length_eq_one.1 h2 with ⟨d, rfl⟩
      have hp : primary = d ∧ (d.status == "PRIMARY") = true := by
        rw [List.find?_cons] at hf
        cases hs : (d.status == "PRIMARY") with
        | true => rw [hs] at hf; exact ⟨(Option.some.inj hf).symm, rfl⟩
        | false => rw [hs] at hf; simp at hf
      rcases hp with ⟨hpd, hs⟩
      exact ⟨d, rfl, by simpa using hs, by simpa [hpd] using h1⟩
  · rintro ⟨d, rfl, hs, hr⟩
    unfold stableCheck
    have : [d].find? (fun d => d.status == "PRIMARY") = some d := by
      simp [List.find?_cons, hs]
    rw [this]
    simp [hr]

theorem waitForStableTick_poll (seen : List String) (svc : Snapshot)
    (hev : ∀ ev ∈ svc.events, testFailureRegex ev.message = false)
    (hst : stableCheck svc.deployments = false) :
    waitForStableTick seen svc =
      TickResult.poll (processEvents seen [] svc.events).seen := by
  have h1 := processEvents_failure_none svc.events seen [] hev
  simp [waitForStableTick, h1, hst]

theorem monitorFrom_timeout_aux (snaps : Nat → Except JsError Snapshot)
    (H : ∀ n, ∃ svc, snaps n = Except.ok svc ∧
      stableCheck svc.deployments = false ∧
      ∀ ev ∈ svc.events, testFailureRegex ev.message = false) :
    ∀ n seen elapsed, elapsed % 15000 = 0 → elapsed ≤ 600000 →
      600000 - elapsed ≤ n * 15000 →
      monitorFrom snaps 600000 seen elapsed = MonitorResult.timedOut 600000 := by
  intro n
  induction n with
  | zero =>
    intro seen elapsed hmod hle hbound
    have : elapsed = 600000 := by omega
    subst this
    rw [monitorFrom]
    simp
  | succ k ih =>
    intro seen elapsed hmod hle hbound
    by_cases h : elapsed < 600000
    · rcases H (elapsed / 15000) with ⟨svc, hs, hst, hev⟩
      have htick := waitForStableTick_poll seen svc hev hst
      rw [monitorFrom]
      simp only [h, dite_true, hs, htick]
      exact ih _ (elapsed + 15000) (by omega) (by omega) (by omega)
    · have : elapsed = 600000 := by omega
      subst this
      rw [monitorFrom]
      simp

/- ────────────────────────────────────────────────────────────────────────
   Claim theorems
   ──────────────────────────────────────────────────────────────────────── -/

/-- C1: on a snapshot whose events trigger no failure classification, the
`waitForStable` tick reports stable iff a PRIMARY deployment exists, its
running count equals its desired count, and it is the only deployment in the
snapshot's deployments list; and (unconditionally) a snapshot holding a
satisfied PRIMARY deployment plus any non-PRIMARY deployment is never reported
stable on that tick. -/
theorem stability_predicate_correct (seen : List String) (svc : Snapshot)
    (hev : ∀ ev ∈ svc.events, testFailureRegex ev.message = false) :
    (waitForStableTick seen svc = TickResult.stable ↔
      ∃ d, svc.deployments = [d] ∧ d.status = "PRIMARY" ∧
        d.runningCount = d.desiredCount) ∧
    (∀ p q, p ∈ svc.deployments → p.status = "PRIMARY" →
      p.runningCount = p.desiredCount → q ∈ svc.deployments →
      q.status ≠ "PRIMARY" → waitForStableTick seen svc ≠ TickResult.stable) := by
  have h1 := processEvents_failure_none svc.events seen [] hev
  constructor
  · cases hst : stableCheck svc.deployments with
    | true =>
      constructor
      · intro _; exact (stableCheck_iff svc.deployments).1 hst
      · intro _; simp [waitForStableTick, h1, hst]
    | false =>
      constructor
      · intro h; simp [waitForStableTick, h1, hst] at h
      · intro hex
        rw [(stableCheck_iff svc.deployments).2 hex] at hst
        cases hst
  · intro p q hp hps hpr hq hqs hcontra
    simp only [waitForStableTick, h1] at hcontra
    by_cases hst : stableCheck svc.deployments = true
    · rcases (stableCheck_iff svc.deployments).1 hst with ⟨d, hdep, hds, _⟩
      rw [hdep] at hq
      have hq' : q = d := by simpa using hq
      exact hqs (by rw [hq', hds])
    · simp only [Bool.not_eq_true] at hst
      rw [hst] at hcontra
      simp at hcontra

/-- Witness for C1 at the two snapshots of the spec's test scenario: a lone
PRIMARY deployment with running = desired = 2 is stable; the same plus an
ACTIVE competing deployment is not. -/
theorem stability_predicate_correct_witness :
    waitForStableTick [] ⟨[⟨"PRIMARY", 2, 2⟩], []⟩ = TickResult.stable ∧
    waitForStableTick []
        ⟨[⟨"PRIMARY", 2, 2⟩, ⟨"ACTIVE", 1, 2⟩], []⟩ ≠ TickResult.stable := by
  constructor
  · exact (stability_predicate_correct [] ⟨[⟨"PRIMARY", 2, 2⟩], []⟩
        (by intro ev h; cases h)).1.2 ⟨⟨"PRIMARY", 2, 2⟩, rfl, rfl, rfl⟩
  · exact (stability_predicate_correct []
        ⟨[⟨"PRIMARY", 2, 2⟩, ⟨"ACTIVE", 1, 2⟩], []⟩
        (by intro ev h; cases h)).2
      ⟨"PRIMARY", 2, 2⟩ ⟨"ACTIVE", 1, 2⟩ (by simp) rfl rfl (by simp) (by decide)

/-- C2: a snapshot holding a not-yet-processed event whose message matches the
fixed failure regex makes the `waitForStable` tick throw a deployment-failed
error carrying the message of such an event; in particular a run whose first
snapshot holds such an event fails on that very first tick, regardless of the
remaining timeout budget.  (Event ids are unique per service snapshot, per the
data model.) -/
theorem failure_event_fail_fast (seen : List String) (svc : Snapshot) (ev : Event)
    (hnd : (svc.events.map Event.id).Nodup)
    (h1 : ev ∈ svc.events) (h2 : ev.id ∉ seen)
    (h3 : testFailureRegex ev.message = true) :
    (∃ m, waitForStableTick seen svc = TickResult.failed m ∧
      ∃ e ∈ svc.events, testFailureRegex e.message = true ∧ m = e.message) ∧
    (∀ snaps, snaps 0 = Except.ok svc → seen = [] →
      ∃ m, waitForStableRun snaps = MonitorResult.failed m) := by
  rcases processEvents_failure_of_fresh svc.events seen [] hnd ⟨ev, h1, h2, h3⟩
    with ⟨m, hm, e, he, hfe, hme⟩
  have htick : waitForStableTick seen svc = TickResult.failed m := by
    simp [waitForStableTick, hm]
  refine ⟨⟨m, htick, e, he, hfe, hme⟩, ?_⟩
  intro snaps hs hseen
  subst hseen
  refine ⟨m, ?_⟩
  rw [waitForStableRun, monitorFrom]
  norm_num [hs, htick]

/-- Witness for C2: an event whose message contains "was stopped" fails the
tick (and the run) at once. -/
theorem failure_event_fail_fast_witness :
    ∃ m, waitForStableTick []
        ⟨[⟨"PRIMARY", 0, 1⟩], [⟨"ev-1", "task 123 was stopped unexpectedly"⟩]⟩ =
        TickResult.failed m ∧
      ∃ e ∈ [Event.mk "ev-1" "task 123 was stopped unexpectedly"],
        testFailureRegex e.message = true ∧ m = e.message :=
  (failure_event_fail_fast []
      ⟨[⟨"PRIMARY", 0, 1⟩], [⟨"ev-1", "task 123 was stopped unexpectedly"⟩]⟩
      ⟨"ev-1", "task 123 was stopped unexpectedly"⟩
      (by decide) (by decide) (by decide) (by decide)).1

/-- C3: within one monitor invocation the processed-id set only grows, an
event whose id is already processed is skipped outright, and re-feeding a
snapshot whose events were all processed in a previous non-failing tick
produces no informational logging, no failure classification, and leaves the
set unchanged. -/
theorem event_dedup (seen : List String) (evs : List Event) :
    (∀ x ∈ seen, x ∈ (processEvents seen [] evs).seen) ∧
    (∀ logged ev rest, ev.id ∈ seen →
      processEvents seen logged (ev :: rest) = processEvents seen logged rest) ∧
    ((processEvents seen [] evs).failure = none →
      processEvents (processEvents seen [] evs).seen [] evs =
        ⟨(processEvents seen [] evs).seen, [], none⟩) := by
  refine ⟨fun x hx => processEvents_seen_mono evs seen [] x hx, ?_, ?_⟩
  · intro logged ev rest hc
    simp [processEvents, hc]
  · intro hfail
    exact processEvents_skip_seen evs _ []
      (processEvents_mem_seen evs seen [] hfail)

/-- Witness for C3: feeding the same two events across two consecutive ticks
logs nothing and classifies nothing the second time. -/
theorem event_dedup_witness :
    processEvents
        (processEvents ["e0"] []
          [⟨"e1", "service app has started 1 tasks"⟩,
           ⟨"e2", "service app has reached a steady state"⟩]).seen []
        [⟨"e1", "service app has started 1 tasks"⟩,
         ⟨"e2", "service app has reached a steady state"⟩] =
      ⟨(processEvents ["e0"] []
          [⟨"e1", "service app has started 1 tasks"⟩,
           ⟨"e2", "service app has reached a steady state"⟩]).seen, [], none⟩ :=
  (event_dedup ["e0"]
    [⟨"e1", "service app has started 1 tasks"⟩,
     ⟨"e2", "service app has reached a steady state"⟩]).2.2 (by decide)

/-- C4: when no snapshot is ever stable and no failure-phrase event ever
appears, `waitForStable` — polling one snapshot every 15000 ms — throws the
timed-out error exactly when the elapsed clock reaches the configured
10-minute budget of 600000 ms, neither earlier nor later. -/
theorem monitor_timeout_exact (snaps : Nat → Except JsError Snapshot)
    (H : ∀ n, ∃ svc, snaps n = Except.ok svc ∧
      stableCheck svc.deployments = false ∧
      ∀ ev ∈ svc.events, testFailureRegex ev.message = false) :
    waitForStableRun snaps = MonitorResult.timedOut 600000 := by
  have h := monitorFrom_timeout_aux snaps H 40 [] 0 (by norm_num) (by norm_num)
    (by norm_num)
  rw [waitForStableRun]
  exact h

/-- Witness for C4: a service stuck at running 0 of desired 1 with no events
times out at exactly 600000 ms. -/
theorem monitor_timeout_exact_witness :
    waitForStableRun (fun _ => Except.ok ⟨[⟨"PRIMARY", 0, 1⟩], []⟩) =
      MonitorResult.timedOut 600000 :=
  monitor_timeout_exact _
    (fun _ => ⟨⟨[⟨"PRIMARY", 0, 1⟩], []⟩, rfl, by decide, by intro ev h; cases h⟩)

/-- C10: a snapshot holding a fresh failure-phrase event is classified FAILED
by the `waitForStable` tick even when its deployments list satisfies the
stability predicate at the same time — event classification runs before the
stability test, so the tick never reports stable. -/
theorem failure_priority_over_stability (seen : List String) (svc : Snapshot)
    (ev : Event) (hnd : (svc.events.map Event.id).Nodup)
    (h1 : ev ∈ svc.events) (h2 : ev.id ∉ seen)
    (h3 : testFailureRegex ev.message = true)
    (_h4 : stableCheck svc.deployments = true) :
    (∃ m, waitForStableTick seen svc = TickResult.failed m) ∧
    waitForStableTick seen svc ≠ TickResult.stable := by
  rcases processEvents_failure_of_fresh svc.events seen [] hnd ⟨ev, h1, h2, h3⟩
    with ⟨m, hm, _⟩
  have htick : waitForStableTick seen svc = TickResult.failed m := by
    simp [waitForStableTick, hm]
  exact ⟨⟨m, htick⟩, by rw [htick]; intro hcontra; cases hcontra⟩

/-- Witness for C10: one fresh "was stopped" event beats a simultaneously
stable deployments list. -/
theorem failure_priority_over_stability_witness :
    (∃ m, waitForStableTick []
        ⟨[⟨"PRIMARY", 1, 1⟩], [⟨"ev-9", "task 9 was stopped"⟩]⟩ =
        TickResult.failed m) ∧
    waitForStableTick []
        ⟨[⟨"PRIMARY", 1, 1⟩], [⟨"ev-9", "task 9 was stopped"⟩]⟩ ≠
      TickResult.stable :=
  failure_priority_over_stability []
    ⟨[⟨"PRIMARY", 1, 1⟩], [⟨"ev-9", "task 9 was stopped"⟩]⟩
    ⟨"ev-9", "task 9 was stopped"⟩
    (by decide) (by decide) (by decide) (by decide) (by decide)

/-- C5 counterexample: a permission-denied GetRole failure does NOT propagate
from `ensureRole` — its bare catch treats ANY lookup error as absence, so the
create branch runs (one CreateRole is issued and the role is created) and the
locally computed ARN is returned as if the role had been missing. -/
theorem role_lookup_error_counterexample :
    (ensureRole ⟨[], []⟩
        (some ⟨"AccessDenied", "not authorized to perform iam GetRole"⟩)
        "123456789012" "ecsTaskExecutionRole"
        "arn:aws:iam::aws:policy/service-role/AmazonECSTaskExecutionRolePolicy").2.2
      = 1 ∧
    (ensureRole ⟨[], []⟩
        (some ⟨"AccessDenied", "not authorized to perform iam GetRole"⟩)
        "123456789012" "ecsTaskExecutionRole"
        "arn:aws:iam::aws:policy/service-role/AmazonECSTaskExecutionRolePolicy").2.1.roles
      = [⟨"ecsTaskExecutionRole"⟩] := by
  exact ⟨rfl, rfl⟩

/-- C5 amended: only `ensureECR` restricts its create branch to the specific
not-found error kind (`RepositoryNotFoundException`), propagating every other
lookup error unmodified; `ensureCluster` and `ensureSG` catch nothing, so every
lookup error propagates unmodified (their create branches are driven by a
successful empty/non-ACTIVE response, not by an error); but `ensureRole`'s bare
catch interprets EVERY lookup error as absence and runs the create branch. -/
theorem lookup_error_handling :
    (∀ st e repo account region, e.name ≠ "RepositoryNotFoundException" →
      ensureECR st (some e) repo account region = Except.error e) ∧
    (∀ st e name, ensureCluster st (some e) name = Except.error e) ∧
    (∀ st e vpcId project, ensureSG st (some e) vpcId project = Except.error e) ∧
    (∀ st e account roleName policyArn,
      (ensureRole st (some e) account roleName policyArn).1 =
        mkRoleArn account roleName ∧
      (ensureRole st (some e) account roleName policyArn).2.2 = 1) := by
  refine ⟨?_, ?_, ?_, ?_⟩
  · intro st e repo account region h
    simp [ensureECR, ecrDescribe, bne_iff_ne, h]
  · intro st e name
    simp [ensureCluster, clusterDescribe]
  · intro st e vpcId project
    simp [ensureSG, sgDescribe]
  · intro st e account roleName policyArn
    exact ⟨rfl, rfl⟩

/-- Witness for C5 (amended): a throttling error propagates unmodified from
the registry lookup. -/
theorem lookup_error_handling_witness :
    ensureECR ⟨[]⟩ (some ⟨"ThrottlingException", "Rate exceeded"⟩)
        "app-prod" "123456789012" "us-east-1" =
      Except.error ⟨"ThrottlingException", "Rate exceeded"⟩ :=
  lookup_error_handling.1 ⟨[]⟩ ⟨"ThrottlingException", "Rate exceeded"⟩
    "app-prod" "123456789012" "us-east-1" (by decide)


/-- C6: each provisioner returns the existing identifier with zero Create*
calls when the lookup finds the resource in an acceptable state, and two
successive invocations with the same name issue at most one creation in total,
the second returning the same identifier with the control plane unchanged. -/
theorem provisioners_idempotent :
    (∀ st name account region r, ecrDescribe st none name = Except.ok r →
      ensureECR st none name account region =
        Except.ok ⟨r.repositoryUri, st, 0⟩) ∧
    (∀ st name account region res,
      ensureECR st none name account region = Except.ok res →
      res.createCalls ≤ 1 ∧
      ensureECR res.state none name account region =
        Except.ok ⟨res.uri, res.state, 0⟩) ∧
    (∀ st name c, (clusterLookup st name).head? = some c → c.status = "ACTIVE" →
      ensureCluster st none name = Except.ok (c.clusterArn, st, 0)) ∧
    (∀ st name arn st2 k, ensureCluster st none name = Except.ok (arn, st2, k) →
      k ≤ 1 ∧ ensureCluster st2 none name = Except.ok (arn, st2, 0)) ∧
    (∀ st account roleName policyArn, getRole st none roleName = Except.ok () →
      ensureRole st none account roleName policyArn =
        (mkRoleArn account roleName, st, 0)) ∧
    (∀ st account roleName policyArn,
      (ensureRole st none account roleName policyArn).2.2 ≤ 1 ∧
      ensureRole (ensureRole st none account roleName policyArn).2.1 none
          account roleName policyArn =
        ((ensureRole st none account roleName policyArn).1,
         (ensureRole st none account roleName policyArn).2.1, 0)) ∧
    (∀ st vpcId project g rest,
      sgLookup st vpcId (project ++ "-sg") = g :: rest →
      ensureSG st none vpcId project = Except.ok (g.groupId, st, 0)) ∧
    (∀ st vpcId project gid st2 k,
      ensureSG st none vpcId project = Except.ok (gid, st2, k) →
      k ≤ 1 ∧ ensureSG st2 none vpcId project = Except.ok (gid, st2, 0)) := by
  refine ⟨?_, ?_, ?_, ?_, ?_, ?_, ?_, ?_⟩
  · intro st name account region r h
    simp [ensureECR, h]
  · intro st name account region res h
    cases hf : st.repos.find? (fun r0 => r0.repositoryName == name) with
    | some r =>
      have hd : ecrDescribe st none name = Except.ok r := by
        simp [ecrDescribe, hf]
      have he : ensureECR st none name account region =
          Except.ok ⟨r.repositoryUri, st, 0⟩ := by
        simp [ensureECR, hd]
      rw [he, Except.ok.injEq] at h
      subst h
      exact ⟨by simp, by simp [ensureECR, hd]⟩
    | none =>
      have hd : ecrDescribe st none name =
          Except.error ⟨"RepositoryNotFoundException",
            "Repository " ++ name ++ " does not exist"⟩ := by
        simp [ecrDescribe, hf]
      have he : ensureECR st none name account region =
          Except.ok ⟨mkRepoUri account region name,
            ⟨st.repos ++ [⟨name, mkRepoUri account region name⟩]⟩, 1⟩ := by
        simp [ensureECR, hd]
      rw [he, Except.ok.injEq] at h
      subst h
      refine ⟨by simp, ?_⟩
      have hfind : (st.repos ++
          [(⟨name, mkRepoUri account region name⟩ : EcrRepo)]).find?
            (fun r0 => r0.repositoryName == name) =
          some ⟨name, mkRepoUri account region name⟩ := by
        rw [List.find?_append, hf]
        simp [List.find?_cons]
      simp [ensureECR, ecrDescribe, hfind]
  · intro st name c h hA
    simp [ensureCluster, clusterDescribe, h, hA]
  · intro st name arn st2 k h
    have hcr : Except.ok (mkClusterArn name,
        (⟨st.clusters.filter (fun c0 => c0.clusterName != name) ++
          [⟨name, mkClusterArn name, "ACTIVE"⟩]⟩ : ClusterState), 1) =
        (Except.ok (arn, st2, k) :
          Except JsError (String × ClusterState × Nat)) →
        k ≤ 1 ∧ ensureCluster st2 none name = Except.ok (arn, st2, 0) := by
      intro h0
      rw [Except.ok.injEq, Prod.mk.injEq] at h0
      obtain ⟨h1, h2⟩ := h0
      rw [Prod.mk.injEq] at h2
      obtain ⟨h2, h3⟩ := h2
      subst h1; subst h2; subst h3
      refine ⟨by omega, ?_⟩
      have hlook : clusterLookup
          (⟨st.clusters.filter (fun c0 => c0.clusterName != name) ++
            [⟨name, mkClusterArn name, "ACTIVE"⟩]⟩ : ClusterState) name =
          [⟨name, mkClusterArn name, "ACTIVE"⟩] := by
        simp only [clusterLookup]
        rw [List.filter_append]
        have h4 : (st.clusters.filter (fun c0 => c0.clusterName != name)).filter
            (fun c => c.clusterName == name) = [] :=
          filter_self_of_filter_not
            (fun c0 : EcsCluster => c0.clusterName == name) st.clusters
        rw [h4]
        simp
      simp [ensureCluster, clusterDescribe, hlook]
    cases hh : (clusterLookup st name).head? with
    | some c =>
      by_cases hA : c.status = "ACTIVE"
      · have he : ensureCluster st none name =
            Except.ok (c.clusterArn, st, 0) := by
          simp [ensureCluster, clusterDescribe, hh, hA]
        rw [he, Except.ok.injEq, Prod.mk.injEq] at h
        obtain ⟨h1, h2⟩ := h
        rw [Prod.mk.injEq] at h2
        obtain ⟨h2, h3⟩ := h2
        subst h1; subst h2; subst h3
        exact ⟨by omega, by simp [ensureCluster, clusterDescribe, hh, hA]⟩
      · have hA' : (c.status == "ACTIVE") = false := beq_eq_false_iff_ne.2 hA
        have he : ensureCluster st none name =
            Except.ok (mkClusterArn name,
              ⟨st.clusters.filter (fun c0 => c0.clusterName != name) ++
                [⟨name, mkClusterArn name, "ACTIVE"⟩]⟩, 1) := by
          simp [ensureCluster, clusterDescribe, hh, hA', clusterCreate]
        rw [he] at h
        exact hcr h
    | none =>
      have he : ensureCluster st none name =
          Except.ok (mkClusterArn name,
            ⟨st.clusters.filter (fun c0 => c0.clusterName != name) ++
              [⟨name, mkClusterArn name, "ACTIVE"⟩]⟩, 1) := by
        simp [ensureCluster, clusterDescribe, hh, clusterCreate]
      rw [he] at h
      exact hcr h
  · intro st account roleName policyArn h
    simp [ensureRole, h]
  · intro st account roleName policyArn
    by_cases hr : st.roles.any (fun r => r.roleName == roleName) = true
    · have hg : getRole st none roleName = Except.ok () := by
        simp [getRole, hr]
      simp [ensureRole, hg]
    · have hg : getRole st none roleName =
          Except.error ⟨"NoSuchEntityException",
            "The role with name " ++ roleName ++ " cannot be found"⟩ := by
        simp only [Bool.not_eq_true] at hr
        simp [getRole, hr]
      have hg2 : getRole
          ⟨st.roles ++ [⟨roleName⟩],
           st.attached ++ [(roleName, policyArn)]⟩ none roleName =
          Except.ok () := by
        simp [getRole, List.any_append]
      simp [ensureRole, hg, hg2]
  · intro st vpcId project g rest h
    simp [ensureSG, sgDescribe, h]
  · intro st vpcId project gid st2 k h
    cases hl : sgLookup st vpcId (project ++ "-sg") with
    | cons g rest =>
      have he : ensureSG st none vpcId project =
          Except.ok (g.groupId, st, 0) := by
        simp [ensureSG, sgDescribe, hl]
      rw [he, Except.ok.injEq, Prod.mk.injEq] at h
      obtain ⟨h1, h2⟩ := h
      rw [Prod.mk.injEq] at h2
      obtain ⟨h2, h3⟩ := h2
      subst h1; subst h2; subst h3
      exact ⟨by omega, by simp [ensureSG, sgDescribe, hl]⟩
    | nil =>
      have he : ensureSG st none vpcId project =
          Except.ok (mkGroupId st,
            ⟨st.sgs ++ [⟨project ++ "-sg", vpcId, mkGroupId st⟩],
             st.ingressAuthorized ++ [mkGroupId st]⟩, 1) := by
        simp [ensureSG, sgDescribe, hl]
      rw [he, Except.ok.injEq, Prod.mk.injEq] at h
      obtain ⟨h1, h2⟩ := h
      rw [Prod.mk.injEq] at h2
      obtain ⟨h2, h3⟩ := h2
      subst h1; subst h2; subst h3
      refine ⟨by omega, ?_⟩
      have hlook : sgLookup
          (⟨st.sgs ++ [⟨project ++ "-sg", vpcId, mkGroupId st⟩],
            st.ingressAuthorized ++ [mkGroupId st]⟩ : Ec2State) vpcId
          (project ++ "-sg") =
          [⟨project ++ "-sg", vpcId, mkGroupId st⟩] := by
        simp only [sgLookup]
        rw [List.filter_append]
        have h0 : st.sgs.filter
            (fun g0 => g0.groupName == project ++ "-sg" &&
              g0.vpcId == vpcId) = [] := hl
        rw [h0]
        simp
      simp [ensureSG, sgDescribe, hlook]

/-- Witness for C6: a second registry ensure after a creating first ensure
returns the same URI without any further creation. -/
theorem provisioners_idempotent_witness :
    (1 : Nat) ≤ 1 ∧
    ensureECR ⟨[⟨"app-prod", "123456789012.dkr.ecr.us-east-1.amazonaws.com/app-prod"⟩]⟩
        none "app-prod" "123456789012" "us-east-1" =
      Except.ok ⟨"123456789012.dkr.ecr.us-east-1.amazonaws.com/app-prod",
        ⟨[⟨"app-prod", "123456789012.dkr.ecr.us-east-1.amazonaws.com/app-prod"⟩]⟩, 0⟩ :=
  provisioners_idempotent.2.1 ⟨[]⟩ "app-prod" "123456789012" "us-east-1"
    ⟨"123456789012.dkr.ecr.us-east-1.amazonaws.com/app-prod",
     ⟨[⟨"app-prod", "123456789012.dkr.ecr.us-east-1.amazonaws.com/app-prod"⟩]⟩, 1⟩
    (by rfl)

/-- Helper: the CreateService branch always issues exactly one create request,
whether or not the control plane accepts it. -/
theorem createServiceCall_calls (st : ServiceState)
    (cluster name taskDefArn : String) :
    (createServiceCall st cluster name taskDefArn).createCalls = 1 := by
  unfold createServiceCall
  split <;> rfl

/-- C7 counterexample: with an existing DRAINING service, `ensureService` does
NOT stop at a precondition failure — it falls through to the create branch and
issues a CreateService request (which the control plane then rejects as
non-idempotent), contradicting "neither creates a replacement service". -/
theorem inactive_service_create_counterexample :
    (ensureService
        ⟨[⟨"app-service", "arn:aws:ecs:service/app-cluster/app-service",
           "DRAINING", "app-task:1"⟩]⟩
        none "app-cluster" "app-service" "app-task:2").createCalls = 1 ∧
    (ensureService
        ⟨[⟨"app-service", "arn:aws:ecs:service/app-cluster/app-service",
           "DRAINING", "app-task:1"⟩]⟩
        none "app-cluster" "app-service" "app-task:2").result =
      Except.error ⟨"InvalidParameterException",
        "Creation of service was not idempotent"⟩ :=
  ⟨rfl, rfl⟩

/-- C7 amended: the `deployToECS` service gate treats an existing non-ACTIVE
service as fatal — it aborts with "ECS service not found" before issuing any
RegisterTaskDefinition or UpdateService request; but `ensureService` in the
provisioning path treats a non-ACTIVE existing service as absent and attempts
a CreateService call for it. -/
theorem inactive_service_handling :
    (∀ s rest, s.status ≠ "ACTIVE" →
      deployToECSGate (Except.ok (s :: rest)) =
        ⟨Except.error "ECS service not found", 0, 0⟩) ∧
    (∀ st cluster name taskDefArn s rest,
      serviceLookup st name = s :: rest → s.status ≠ "ACTIVE" →
      (ensureService st none cluster name taskDefArn).createCalls = 1) := by
  constructor
  · intro s rest h
    have h' : (s.status == "ACTIVE") = false := beq_eq_false_iff_ne.2 h
    simp [deployToECSGate, h']
  · intro st cluster name taskDefArn s rest hl h
    have h' : (s.status == "ACTIVE") = false := beq_eq_false_iff_ne.2 h
    have he : ensureService st none cluster name taskDefArn =
        createServiceCall st cluster name taskDefArn := by
      simp [ensureService, serviceDescribe, hl, h']
    rw [he]
    exact createServiceCall_calls st cluster name taskDefArn

/-- Witness for C7 (amended): a DRAINING service makes the deploy gate abort
with no register and no update, and makes ensureService attempt one create. -/
theorem inactive_service_handling_witness :
    deployToECSGate (Except.ok
        [⟨"app-service", "arn:aws:ecs:service/app-cluster/app-service",
          "DRAINING", "app-task:1"⟩]) =
      ⟨Except.error "ECS service not found", 0, 0⟩ :=
  inactive_service_handling.1
    ⟨"app-service", "arn:aws:ecs:service/app-cluster/app-service",
      "DRAINING", "app-task:1"⟩ [] (by decide)

/-- The field-wise frame property of a container copied by object spread with
only its image replaced. -/
def preservedExceptImage (c0 c : ContainerDef) (uri : String) : Prop :=
  c.name = c0.name ∧ c.essential = c0.essential ∧
  c.portMappings = c0.portMappings ∧ c.logGroup = c0.logGroup ∧
  c.environment = c0.environment ∧ c.image = uri ++ ":latest"

theorem swapImages_frame (cs : List ContainerDef) (u : String) :
    List.Forall₂ (fun c0 c => preservedExceptImage c0 c u) cs (swapImages cs u) := by
  induction cs with
  | nil => exact List.Forall₂.nil
  | cons c t ih => exact List.Forall₂.cons ⟨rfl, rfl, rfl, rfl, rfl, rfl⟩ ih

theorem foldl_max_init_le (l : List TaskDef) :
    ∀ init : Nat, init ≤ l.foldl (fun m t0 => max m t0.revision) init := by
  induction l with
  | nil => intro init; exact le_refl _
  | cons a tl ih =>
    intro init
    exact le_trans (le_max_left init a.revision) (ih _)

theorem le_foldl_max (l : List TaskDef) :
    ∀ (init : Nat) (t : TaskDef), t ∈ l →
      t.revision ≤ l.foldl (fun m t0 => max m t0.revision) init := by
  induction l with
  | nil => intro init t ht; cases ht
  | cons a tl ih =>
    intro init t ht
    rcases List.mem_cons.1 ht with rfl | h'
    · exact le_trans (le_max_right init t.revision) (foldl_max_init_le tl _)
    · exact ih _ t h'

/-- C8 counterexample: the `waitForStable` variant of `deployToECS` does not
copy the prior revision's role references — it overwrites them with the
freshly ensured default role ARNs, so a prior definition using a custom
execution role yields a registered definition whose role field differs. -/
theorem registrar_role_fields_counterexample :
    (newTaskDefParams
        ⟨"app-task", "awsvpc", ["FARGATE"], "256", "512",
          "arn:aws:iam::123456789012:role/customExecutionRole",
          "arn:aws:iam::123456789012:role/customTaskRole",
          [⟨"app", "old-image:1", true, [3000], "/ecs/app-task", []⟩], 3⟩
        (mkRoleArn "123456789012" "ecsTaskExecutionRole")
        (mkRoleArn "123456789012" "ecsTaskRole")
        "123456789012.dkr.ecr.us-east-1.amazonaws.com/app-prod").executionRoleArn ≠
      (⟨"app-task", "awsvpc", ["FARGATE"], "256", "512",
          "arn:aws:iam::123456789012:role/customExecutionRole",
          "arn:aws:iam::123456789012:role/customTaskRole",
          [⟨"app", "old-image:1", true, [3000], "/ecs/app-task", []⟩], 3⟩ :
        TaskDef).executionRoleArn := by
  decide

/-- C8 amended: both deployToECS variants copy family, network mode,
compatibilities, cpu, memory and every non-image container field from the
prior definition and replace only the container images with the new reference;
the `waitForDeployment` variant also copies both role references, while the
`waitForStable` variant sets them to the freshly ensured role ARNs instead;
and registration appends a brand-new strictly-greater revision, leaving every
prior revision unchanged. -/
theorem task_registrar_frame :
    (∀ td e t u,
      (newTaskDefParams td e t u).family = td.family ∧
      (newTaskDefParams td e t u).networkMode = td.networkMode ∧
      (newTaskDefParams td e t u).requiresCompatibilities =
        td.requiresCompatibilities ∧
      (newTaskDefParams td e t u).cpu = td.cpu ∧
      (newTaskDefParams td e t u).memory = td.memory ∧
      (newTaskDefParams td e t u).executionRoleArn = e ∧
      (newTaskDefParams td e t u).taskRoleArn = t ∧
      List.Forall₂ (fun c0 c => preservedExceptImage c0 c u)
        td.containerDefinitions (newTaskDefParams td e t u).containerDefinitions) ∧
    (∀ td u,
      (newTaskDefParamsV2 td u).family = td.family ∧
      (newTaskDefParamsV2 td u).networkMode = td.networkMode ∧
      (newTaskDefParamsV2 td u).requiresCompatibilities =
        td.requiresCompatibilities ∧
      (newTaskDefParamsV2 td u).cpu = td.cpu ∧
      (newTaskDefParamsV2 td u).memory = td.memory ∧
      (newTaskDefParamsV2 td u).executionRoleArn = td.executionRoleArn ∧
      (newTaskDefParamsV2 td u).taskRoleArn = td.taskRoleArn ∧
      List.Forall₂ (fun c0 c => preservedExceptImage c0 c u)
        td.containerDefinitions (newTaskDefParamsV2 td u).containerDefinitions) ∧
    (∀ world p,
      (registerTaskDefinitionCall world p).2 =
        world ++ [(registerTaskDefinitionCall world p).1] ∧
      (registerTaskDefinitionCall world p).1.revision =
        maxRevision world p.family + 1 ∧
      (∀ t0 ∈ world, t0.family = p.family →
        t0.revision < (registerTaskDefinitionCall world p).1.revision) ∧
      (registerTaskDefinitionCall world p).1.family = p.family ∧
      (registerTaskDefinitionCall world p).1.executionRoleArn =
        p.executionRoleArn ∧
      (registerTaskDefinitionCall world p).1.taskRoleArn = p.taskRoleArn ∧
      (registerTaskDefinitionCall world p).1.containerDefinitions =
        p.containerDefinitions) := by
  refine ⟨?_, ?_, ?_⟩
  · intro td e t u
    exact ⟨rfl, rfl, rfl, rfl, rfl, rfl, rfl,
      swapImages_frame td.containerDefinitions u⟩
  · intro td u
    exact ⟨rfl, rfl, rfl, rfl, rfl, rfl, rfl,
      swapImages_frame td.containerDefinitions u⟩
  · intro world p
    refine ⟨rfl, rfl, ?_, rfl, rfl, rfl, rfl⟩
    intro t0 ht0 hfam
    have hmem : t0 ∈ world.filter (fun t1 => t1.family == p.family) := by
      rw [List.mem_filter]
      exact ⟨ht0, by simp [hfam]⟩
    have hle : t0.revision ≤ maxRevision world p.family :=
      le_foldl_max _ 0 t0 hmem
    have : (registerTaskDefinitionCall world p).1.revision =
        maxRevision world p.family + 1 := rfl
    omega

/-- Witness for C8 (amended): registering over one prior revision appends
revision 2 and leaves the prior list untouched. -/
theorem task_registrar_frame_witness :
    (registerTaskDefinitionCall
        [⟨"app-task", "awsvpc", ["FARGATE"], "256", "512", "e", "t",
          [⟨"app", "old:1", true, [3000], "/ecs/app-task", []⟩], 1⟩]
        ⟨"app-task", "awsvpc", ["FARGATE"], "256", "512", "e2", "t2",
          [⟨"app", "new:latest", true, [3000], "/ecs/app-task", []⟩]⟩).2 =
      [⟨"app-task", "awsvpc", ["FARGATE"], "256", "512", "e", "t",
        [⟨"app", "old:1", true, [3000], "/ecs/app-task", []⟩], 1⟩] ++
      [(registerTaskDefinitionCall
        [⟨"app-task", "awsvpc", ["FARGATE"], "256", "512", "e", "t",
          [⟨"app", "old:1", true, [3000], "/ecs/app-task", []⟩], 1⟩]
        ⟨"app-task", "awsvpc", ["FARGATE"], "256", "512", "e2", "t2",
          [⟨"app", "new:latest", true, [3000], "/ecs/app-task", []⟩]⟩).1] ∧
    (⟨"app-task", "awsvpc", ["FARGATE"], "256", "512", "e", "t",
        [⟨"app", "old:1", true, [3000], "/ecs/app-task", []⟩], 1⟩ :
      TaskDef).revision <
      (registerTaskDefinitionCall
        [⟨"app-task", "awsvpc", ["FARGATE"], "256", "512", "e", "t",
          [⟨"app", "old:1", true, [3000], "/ecs/app-task", []⟩], 1⟩]
        ⟨"app-task", "awsvpc", ["FARGATE"], "256", "512", "e2", "t2",
          [⟨"app", "new:latest", true, [3000], "/ecs/app-task", []⟩]⟩).1.revision := by
  constructor
  · exact (task_registrar_frame.2.2 _ _).1
  · exact (task_registrar_frame.2.2 _ _).2.2.1 _ (by simp) rfl

/-- C9 counterexample: a failed DescribeServices inside `waitForDeployment`'s
poll loop does not terminate the run — the error is caught, the loop sleeps
one interval and the next tick proceeds, here reaching stability at 15000 ms. -/
theorem describe_error_retry_counterexample :
    waitForDeploymentFrom
      (fun n => if n = 0 then
          Except.error ⟨"ThrottlingException", "Rate exceeded"⟩
        else Except.ok [⟨"PRIMARY", 1, 1⟩])
      600000 0 = DeployWaitResult.stable 15000 := by
  rw [waitForDeploymentFrom]
  norm_num
  rw [waitForDeploymentFrom]
  norm_num [deploymentStableCheck]

/-- C9 amended: a failed describe propagates immediately only from
`waitForStable`; inside `waitForDeployment`'s poll loop it is caught and the
loop simply moves on to the next 15-second tick. -/
theorem remote_failure_propagation :
    (∀ snaps timeout seen elapsed e, elapsed < timeout →
      snaps (elapsed / 15000) = Except.error e →
      monitorFrom snaps timeout seen elapsed =
        MonitorResult.describeFailed e) ∧
    (∀ snaps timeout elapsed e, elapsed < timeout →
      snaps (elapsed / 15000) = Except.error e →
      waitForDeploymentFrom snaps timeout elapsed =
        waitForDeploymentFrom snaps timeout (elapsed + 15000)) := by
  constructor
  · intro snaps timeout seen elapsed e h hsnap
    rw [monitorFrom]
    simp [h, hsnap]
  · intro snaps timeout elapsed e h hsnap
    conv_lhs => rw [waitForDeploymentFrom]
    simp [h, hsnap]

/-- Witness for C9 (amended): `waitForStable` surfaces an access-denied
describe failure on the very first tick. -/
theorem remote_failure_propagation_witness :
    monitorFrom (fun _ => Except.error ⟨"AccessDenied", "denied"⟩)
        600000 [] 0 =
      MonitorResult.describeFailed ⟨"AccessDenied", "denied"⟩ :=
  remote_failure_propagation.1 _ 600000 [] 0 ⟨"AccessDenied", "denied"⟩
    (by norm_num) rfl
